import Mathlib

/-!
Verification development for the Egebot material-catalog bot (`bot.py`).

The program keeps an in-memory catalog `materials : Dict[int, List[Tuple[str, str]]]`
mapping task numbers to ordered lists of `(kind, file_id)` pairs, persists it to a
JSON file after each append, and drives a per-administrator upload session through
an aiogram finite-state machine.  Below, the catalog is embedded as an association
list in insertion order (the semantics of a Python `dict`), the JSON file at two
levels (the parsed document for `load`, the raw text for the partial-write analysis
of `save`), and the message handlers as pure functions from state and event to
state, replies and effects.
-/

namespace Egebot

/-- A stored media reference exactly as Python keeps it:
a `(kind, file_id)` pair of strings. -/
abbrev Entry := String × String

/-- The in-memory catalog `materials : Dict[int, List[Tuple[str, str]]]`,
modelled as an association list in insertion order (Python dict semantics). -/
abbrev Catalog := List (Int × List Entry)

/-- Python `k in d` / `d[k]` lookup on the modelled dict. -/
def dictLookup (c : Catalog) (k : Int) : Option (List Entry) :=
  match c with
  | [] => none
  | (k', v) :: rest => if k' = k then some v else dictLookup rest k

/-- Python `d[k] = v`: overwrite in place if the key is present,
otherwise insert at the end (dicts preserve insertion order). -/
def dictSet (c : Catalog) (k : Int) (v : List Entry) : Catalog :=
  match c with
  | [] => [(k, v)]
  | (k', v') :: rest => if k' = k then (k, v) :: rest else (k', v') :: dictSet rest k v

/-- The keys of the modelled dict, in insertion order. -/
def dictKeys (c : Catalog) : List Int := c.map Prod.fst

/-- The append performed by `handle_file_upload` (bot.py lines 138-140):

    if task_id not in materials:
        materials[task_id] = []
    materials[task_id].append((file_type, file_id))
-/
def appendMaterial (c : Catalog) (taskId : Int) (e : Entry) : Catalog :=
  match dictLookup c taskId with
  | none => dictSet c taskId [e]
  | some v => dictSet c taskId (v ++ [e])

/-- A sequence of appends to the same task, in call order. -/
def appendAll (c : Catalog) (taskId : Int) (refs : List Entry) : Catalog :=
  refs.foldl (fun acc e => appendMaterial acc taskId e) c

/-- The read used by `process_task_selection` / the spec's `get`:
the stored sequence, or `[]` when the task has no entry. -/
def getMaterials (c : Catalog) (taskId : Int) : List Entry :=
  (dictLookup c taskId).getD []

/-! ### Python `str` / `int` on task numbers

`save_materials` serializes the dict keys with `str(k)`; `load_materials`
converts them back with `int(k)`.  Both are modelled structurally: `pyStr`
prints an integer in decimal, `pyInt?` parses an optional sign followed by
decimal digits (whitespace and underscore tolerance of Python's `int` is not
modelled; neither occurs in the program's own output). -/

/-- The character for a decimal digit value (code point 48 is the zero digit). -/
def digitChar (d : Nat) : Char := Char.ofNat (48 + d % 10)

/-- The decimal digit value of a character, when it is one. -/
def charDigit? (c : Char) : Option Nat :=
  if 48 ≤ c.toNat ∧ c.toNat ≤ 57 then some (c.toNat - 48) else none

/-- Decimal digits of `n`, most significant first (`fuel ≥ n` suffices). -/
def natDigits (fuel n : Nat) : List Char :=
  match fuel with
  | 0 => []
  | fuel + 1 =>
    if n < 10 then [digitChar n]
    else natDigits fuel (n / 10) ++ [digitChar (n % 10)]

/-- Python `str(n)` for a natural number. -/
def pyStrNat (n : Nat) : String := ⟨natDigits (n + 1) n⟩

/-- Python `str(i)` for an integer. -/
def pyStr (i : Int) : String :=
  if i < 0 then "-" ++ pyStrNat i.natAbs else pyStrNat i.toNat

def parseDigitsAux (acc : Nat) : List Char → Option Nat
  | [] => some acc
  | c :: cs =>
    match charDigit? c with
    | none => none
    | some d => parseDigitsAux (acc * 10 + d) cs

def parseNat? : List Char → Option Nat
  | [] => none
  | ds => parseDigitsAux 0 ds

/-- Python `int(s)`: optional minus sign, then decimal digits. -/
def pyInt? (s : String) : Option Int :=
  match s.data with
  | '-' :: rest => (parseNat? rest).map (fun n => -(n : Int))
  | ds => (parseNat? ds).map Int.ofNat

/-- Python `s.isdigit()` as used by `cmd_add`: non-empty and all decimal digits. -/
def pyIsDigit (s : String) : Bool :=
  !s.data.isEmpty && s.data.all (fun c => (charDigit? c).isSome)

/-! ### Durable persistence

`save_materials` (bot.py lines 36-38) opens `materials.json` in mode `"w"` —
truncating whatever was there — and streams `json.dump(materials, f,
ensure_ascii=False, indent=2)` into it.  We model the file text produced by
`json.dump` exactly (keys are `str(k)` in dict insertion order, tuples become
two-element arrays, two-space indentation), and an I/O failure mid-dump as the
file retaining only the first `k` characters of the new serialization. -/

/-- JSON string literal (the stored kinds and Telegram file ids need no escapes;
escaping is not modelled). -/
def jsonStr (s : String) : String := "\"" ++ s ++ "\""

/-- One `(kind, file_id)` tuple as `json.dump` renders it with `indent=2`;
`ind` is the indentation of the pair's own brackets. -/
def dumpPair (ind : String) (e : Entry) : String :=
  "[\n" ++ ind ++ "  " ++ jsonStr e.1 ++ ",\n" ++ ind ++ "  " ++ jsonStr e.2
    ++ "\n" ++ ind ++ "]"

/-- A task's list of pairs as `json.dump` renders it; `ind` is the indentation
of the list's closing bracket. -/
def dumpEntryList (ind : String) : List Entry → String
  | [] => "[]"
  | vs => "[\n"
      ++ String.intercalate ",\n"
        (vs.map (fun e => ind ++ "  " ++ dumpPair (ind ++ "  ") e))
      ++ "\n" ++ ind ++ "]"

/-- The full text `json.dump(materials, f, ensure_ascii=False, indent=2)` writes:
object keys are `str(taskId)` in dict insertion order. -/
def dumpCatalog : Catalog → String
  | [] => "\x7b\x7d"
  | kvs => "\x7b\n"
      ++ String.intercalate ",\n"
        (kvs.map (fun kv => "  " ++ jsonStr (pyStr kv.1) ++ ": "
          ++ dumpEntryList "  " kv.2))
      ++ "\n\x7d"

/-- Outcome of the durable write: it either completes, or an I/O error
interrupts `json.dump` after `k` characters have reached the file. -/
inductive WriteOutcome
  | ok
  | failAfter (k : Nat)

def WriteOutcome.isOk : WriteOutcome → Bool
  | .ok => true
  | .failAfter _ => false

/-- The file content after `save_materials()`: `open(DATA_FILE, "w")` truncates
the file unconditionally, then the dump either completes or stops after `k`
characters. -/
def saveMaterials (mem : Catalog) (w : WriteOutcome) : String :=
  match w with
  | .ok => dumpCatalog mem
  | .failAfter k => (dumpCatalog mem).take k

/-! ### Loading (`load_materials`, bot.py lines 26-34)

Only `FileNotFoundError` is caught.  A file that is not valid JSON makes
`json.load` raise, and an object key that `int()` cannot parse raises
`ValueError`; both propagate (the program crashes at import time).  The parsed
values are kept verbatim — no validation of the kind tags happens on load. -/

/-- The durable file as `load_materials` encounters it: missing, unparseable,
or a parsed JSON object of string keys to lists of `[kind, id]` pairs. -/
inductive FileDoc
  | absent
  | invalidJson
  | doc (entries : List (String × List Entry))

def jsonDecodeError : String := "json.decoder.JSONDecodeError"

def valueErrorInt : String := "ValueError: invalid literal for int()"

/-- The dict comprehension `{int(k): v for k, v in raw.items()}`: keys converted
in iteration order, values kept as-is; a bad key raises. -/
def loadEntries (acc : Catalog) : List (String × List Entry) → Except String Catalog
  | [] => .ok acc
  | (k, v) :: rest =>
    match pyInt? k with
    | none => .error valueErrorInt
    | some i => loadEntries (dictSet acc i v) rest

/-- `load_materials()`: missing file gives an empty catalog; anything else that
raises is uncaught. -/
def loadMaterials : FileDoc → Except String Catalog
  | .absent => .ok []
  | .invalidJson => .error jsonDecodeError
  | .doc entries => loadEntries [] entries

/-- The parsed-JSON view of what `save_materials` writes: keys are `str(k)`. -/
def saveDoc (c : Catalog) : List (String × List Entry) :=
  c.map (fun kv => (pyStr kv.1, kv.2))

/-! ### Media kinds and reply texts -/

/-- The content types admitted by `handle_file_upload`'s filter
(`F.content_type.in_({ContentType.DOCUMENT, ContentType.VIDEO, ContentType.AUDIO})`). -/
inductive MediaKind
  | document
  | video
  | audio
  deriving DecidableEq

/-- The tag `handle_file_upload` stores for each content type. -/
def MediaKind.tag : MediaKind → String
  | .document => "document"
  | .video => "video"
  | .audio => "audio"

def startText : String := "📚 Выберите номер задания (от 1 до 19):"

def unknownText : String := "Используйте /start для выбора задания."

def noRightsText : String := "⛔ У вас нет прав администратора."

def usageText : String := "❗ Используйте: /add <номер_задания> (например: /add 5)"

def rangeText : String := "❗ Номер задания должен быть от 1 до 19."

def promptText (t : Int) : String :=
  "📎 Отправьте файл (PDF, видео или аудио) для задания " ++ pyStr t ++ ".\n"
    ++ "Вы можете отправить несколько файлов для одного задания.\n"
    ++ "Для завершения введите /done."

def undeterminedText : String := "❌ Не удалось определить тип файла. Попробуйте снова."

def addedText (t : Int) : String :=
  "✅ Файл добавлен к заданию " ++ pyStr t
    ++ ". Можете отправить ещё файл или /done для завершения."

def doneText : String := "✅ Режим добавления материалов завершён."

def checkmeYesText : String := "✅ Вы администратор."

def checkmeNoText : String := "❌ Вы не администратор."

def notAddedText (t : Int) : String :=
  "❌ Материал для задания " ++ pyStr t ++ " ещё не добавлен."

def warnText (t : Int) : String :=
  "⚠️ Не удалось отправить один из файлов для задания " ++ pyStr t ++ "."

def emptyListText : String := "📭 Нет загруженных материалов."

/-! ### `handle_file_upload` (bot.py lines 116-143)

The handler is reached only when the per-user FSM state is
`AddMaterial.waiting_for_file` and the message carries a document, video or
audio (aiogram filters); the routing itself is in `dispatch` below.  The body
appends to the in-memory dict first and only then calls `save_materials()`; a
persistence failure therefore leaves the append in memory, leaves a truncated
file on disk, and propagates out of the handler before the success reply. -/

structure UploadOutcome where
  mem : Catalog
  file : Option String
  replies : List String
  raised : Bool
  deriving DecidableEq

def handleFileUpload (taskId : Int) (mem : Catalog) (file : Option String)
    (kind : MediaKind) (fileId : String) (w : WriteOutcome) : UploadOutcome :=
  -- `if not file_id:` — a falsy file id gets a retry reply and nothing changes
  if fileId = "" then
    { mem := mem, file := file, replies := [undeterminedText], raised := false }
  else
    let mem' := appendMaterial mem taskId (kind.tag, fileId)
    { mem := mem'
      file := some (saveMaterials mem' w)
      replies := if w.isOk then [addedText taskId] else []
      raised := !w.isOk }

/-! ### `process_task_selection` (bot.py lines 68-89)

Each stored pair is matched against the three known tags; a recognized pair is
sent (`answer_document` / `answer_video` / `answer_audio`), and when the send
raises, the `except` arm logs and immediately answers a per-file warning before
the loop continues.  A pair with any other tag matches no branch: nothing is
sent and nothing is reported.  The per-item transport outcome is an input
(`delivered` flag paired with each entry). -/

inductive SendAction
  | sendMedia (kind : String) (fileId : String) (delivered : Bool)
  | reply (text : String)
  deriving DecidableEq

def isRecognizedKind (k : String) : Bool :=
  k == "document" || k == "video" || k == "audio"

/-- The `for file_type, file_id in materials[task_id]:` loop, with each entry
paired with whether the transport would deliver it. -/
def processEntries (taskId : Int) : List (Entry × Bool) → List SendAction
  | [] => []
  | ((k, fid), delivered) :: rest =>
    (if isRecognizedKind k then
      if delivered then [SendAction.sendMedia k fid true]
      else [SendAction.sendMedia k fid false, SendAction.reply (warnText taskId)]
    else [])
    ++ processEntries taskId rest

/-- The whole callback handler: `if task_id not in materials or not
materials[task_id]:` answers the not-added message, otherwise the loop runs. -/
def processTaskSelection (taskId : Int) (mem : Catalog) (outcomes : List Bool) :
    List SendAction :=
  match dictLookup mem taskId with
  | none => [SendAction.reply (notAddedText taskId)]
  | some [] => [SendAction.reply (notAddedText taskId)]
  | some (e :: es) => processEntries taskId ((e :: es).zip outcomes)

/-- The attempted sends in a trace, in order, with their outcomes. -/
def sendAttempts : List SendAction → List (String × String × Bool)
  | [] => []
  | SendAction.sendMedia k f b :: r => (k, f, b) :: sendAttempts r
  | SendAction.reply _ :: r => sendAttempts r

/-- How many per-file warnings for task `t` a trace contains. -/
def countWarnings (t : Int) : List SendAction → Nat
  | [] => 0
  | a :: r => (if a = SendAction.reply (warnText t) then 1 else 0) + countWarnings t r

/-! ### Message routing (the aiogram dispatcher)

One user's view of the bot: the FSM session (`none` = no state;
`some t` = `AddMaterial.waiting_for_file` with `task_id = t` in the state
data — `cmd_add` always sets both together), the shared catalog, and the
durable file.  Handlers are tried in registration order; `handle_file_upload`
carries the `waiting_for_file` + content-type filters and `cmd_done` the
`waiting_for_file` filter, so a media message or `/done` without an active
session falls through to the catch-all `handle_unknown`. -/

structure BotState where
  session : Option Int
  mem : Catalog
  file : Option String
  deriving DecidableEq

/-- The inbound message events the handlers distinguish.  `cmdAdd` carries
`message.text.split(maxsplit=1)[1]` when present. -/
inductive Event
  | cmdStart
  | cmdAdd (arg : Option String)
  | cmdDone
  | cmdCheckme
  | cmdList
  | mediaSubmitted (kind : MediaKind) (fileId : String)
  | otherMessage

/-- Insertion into an ascending list, for `sorted(materials.keys())`. -/
def insertSorted (k : Int) : List Int → List Int
  | [] => [k]
  | x :: xs => if k ≤ x then k :: x :: xs else x :: insertSorted k xs

def sortKeys (l : List Int) : List Int := l.foldr insertSorted []

/-- The `/list` report (`cmd_list`, bot.py lines 157-169). -/
def listText (mem : Catalog) : String :=
  String.intercalate "\n"
    ("📋 Список заданий с материалами:"
      :: (sortKeys (dictKeys mem)).map (fun t =>
        "Задание " ++ pyStr t ++ ": " ++ pyStrNat (getMaterials mem t).length
          ++ " файл(ов)"))

/-- One dispatch step for a message from a user with admin status `admin`:
returns the new state, the replies sent, and whether the handler raised
(a raised exception is swallowed by aiogram after the state mutations that
already happened). -/
def dispatch (admin : Bool) (st : BotState) (ev : Event) (w : WriteOutcome) :
    BotState × List String × Bool :=
  match ev with
  | .cmdStart => (st, [startText], false)
  | .cmdAdd arg =>
    -- cmd_add, bot.py lines 91-114
    if !admin then (st, [noRightsText], false)
    else
      match arg with
      | none => (st, [usageText], false)
      | some a =>
        if !pyIsDigit a then (st, [usageText], false)
        else
          -- isdigit() ⇒ int() succeeds; `getD` is never exercised
          let t : Int := ((parseNat? a.data).getD 0 : Nat)
          if t < 1 ∨ t > 19 then (st, [rangeText], false)
          else ({ st with session := some t }, [promptText t], false)
  | .cmdDone =>
    -- cmd_done is filtered on AddMaterial.waiting_for_file: without an active
    -- session the message reaches handle_unknown instead
    match st.session with
    | some _ => ({ st with session := none }, [doneText], false)
    | none => (st, [unknownText], false)
  | .cmdCheckme => (st, [if admin then checkmeYesText else checkmeNoText], false)
  | .cmdList =>
    if !admin then (st, [noRightsText], false)
    else if st.mem.isEmpty then (st, [emptyListText], false)
    else (st, [listText st.mem], false)
  | .mediaSubmitted kind fileId =>
    -- handle_file_upload is filtered on AddMaterial.waiting_for_file: without
    -- an active session the media message reaches handle_unknown instead
    match st.session with
    | some t =>
      let r := handleFileUpload t st.mem st.file kind fileId w
      ({ st with mem := r.mem, file := r.file }, r.replies, r.raised)
    | none => (st, [unknownText], false)
  | .otherMessage => (st, [unknownText], false)

/-- Run a sequence of message events (each with its write outcome) through the
dispatcher, keeping the resulting state. -/
def runEvents (admin : Bool) (st : BotState) (evs : List (Event × WriteOutcome)) :
    BotState :=
  evs.foldl (fun s ew => (dispatch admin s ew.1 ew.2).1) st

/-! ### Dictionary lemmas -/

theorem dictLookup_dictSet_self (c : Catalog) (k : Int) (v : List Entry) :
    dictLookup (dictSet c k v) k = some v := by
  induction c with
  | nil => simp [dictSet, dictLookup]
  | cons hd tl ih =>
    obtain ⟨k', v'⟩ := hd
    by_cases h : k' = k
    · simp [dictSet, dictLookup, h]
    · simp [dictSet, dictLookup, h, ih]

theorem dictLookup_dictSet_ne (c : Catalog) (k k' : Int) (v : List Entry)
    (h : k' ≠ k) : dictLookup (dictSet c k v) k' = dictLookup c k' := by
  induction c with
  | nil => simp [dictSet, dictLookup, Ne.symm h]
  | cons hd tl ih =>
    obtain ⟨k₀, v₀⟩ := hd
    by_cases hk : k₀ = k
    · subst hk
      simp [dictSet, dictLookup, Ne.symm h]
    · simp [dictSet, dictLookup, hk, ih]

theorem getMaterials_appendMaterial_self (c : Catalog) (k : Int) (e : Entry) :
    getMaterials (appendMaterial c k e) k = getMaterials c k ++ [e] := by
  unfold appendMaterial getMaterials
  cases h : dictLookup c k with
  | none => simp [h, dictLookup_dictSet_self]
  | some v => simp [h, dictLookup_dictSet_self]

theorem dictLookup_appendMaterial_ne (c : Catalog) (k k' : Int) (e : Entry)
    (h : k' ≠ k) : dictLookup (appendMaterial c k e) k' = dictLookup c k' := by
  unfold appendMaterial
  cases dictLookup c k with
  | none => exact dictLookup_dictSet_ne c k k' [e] h
  | some v => exact dictLookup_dictSet_ne c k k' (v ++ [e]) h

theorem dictLookup_eq_none_iff (c : Catalog) (k : Int) :
    dictLookup c k = none ↔ k ∉ dictKeys c := by
  induction c with
  | nil => simp [dictLookup, dictKeys]
  | cons hd tl ih =>
    obtain ⟨k₀, v₀⟩ := hd
    by_cases h : k₀ = k
    · subst h
      simp [dictLookup, dictKeys]
    · simp [dictLookup, dictKeys, h, Ne.symm h, ih]

theorem dictSet_notMem (c : Catalog) (k : Int) (v : List Entry)
    (h : k ∉ dictKeys c) : dictSet c k v = c ++ [(k, v)] := by
  induction c with
  | nil => simp [dictSet]
  | cons hd tl ih =>
    obtain ⟨k₀, v₀⟩ := hd
    simp only [dictKeys, List.map_cons, List.mem_cons] at h
    push_neg at h
    simp [dictSet, Ne.symm h.1, ih h.2]

theorem dictKeys_dictSet_mem (c : Catalog) (k : Int) (v : List Entry)
    (h : k ∈ dictKeys c) : dictKeys (dictSet c k v) = dictKeys c := by
  induction c with
  | nil => simp [dictKeys] at h
  | cons hd tl ih =>
    obtain ⟨k₀, v₀⟩ := hd
    by_cases hk : k₀ = k
    · subst hk
      simp [dictSet, dictKeys]
    · simp only [dictKeys, List.map_cons, List.mem_cons] at h
      rcases h with h | h
      · exact absurd h.symm hk
      · have h2 := ih h
        simp only [dictKeys] at h2
        simp [dictSet, dictKeys, hk, h2]

theorem getMaterials_appendAll (t : Int) (refs : List Entry) :
    ∀ c : Catalog, getMaterials (appendAll c t refs) t = getMaterials c t ++ refs := by
  induction refs with
  | nil => intro c; simp [appendAll]
  | cons r rs ih =>
    intro c
    have step : appendAll c t (r :: rs) = appendAll (appendMaterial c t r) t rs := rfl
    rw [step, ih (appendMaterial c t r), getMaterials_appendMaterial_self]
    simp

theorem dictKeys_appendMaterial (c : Catalog) (t : Int) (e : Entry) :
    (t ∈ dictKeys c ∧ dictKeys (appendMaterial c t e) = dictKeys c) ∨
    (t ∉ dictKeys c ∧ dictKeys (appendMaterial c t e) = dictKeys c ++ [t]) := by
  unfold appendMaterial
  cases h : dictLookup c t with
  | none =>
    right
    have ht : t ∉ dictKeys c := (dictLookup_eq_none_iff c t).mp h
    refine ⟨ht, ?_⟩
    rw [dictSet_notMem c t [e] ht]
    simp [dictKeys]
  | some v =>
    left
    have ht : t ∈ dictKeys c := by
      by_contra hc
      rw [(dictLookup_eq_none_iff c t).mpr hc] at h
      cases h
    exact ⟨ht, dictKeys_dictSet_mem c t _ ht⟩

/-! ### Round-trip lemmas for the persistence format -/

theorem pyInt_pyStr_small :
    ∀ n : Nat, n < 20 → pyInt? (pyStr (Int.ofNat n)) = some (Int.ofNat n) := by
  decide

theorem pyInt_pyStr_taskId (k : Int) (h1 : 1 ≤ k) (h2 : k ≤ 19) :
    pyInt? (pyStr k) = some k := by
  have h0 : 0 ≤ k := le_trans (by norm_num) h1
  have hk : k = Int.ofNat k.toNat := (Int.toNat_of_nonneg h0).symm
  rw [hk]
  exact pyInt_pyStr_small k.toNat (by omega)

theorem loadEntries_saveDoc (c : Catalog) : ∀ acc : Catalog,
    (dictKeys c).Nodup →
    (∀ k ∈ dictKeys c, k ∉ dictKeys acc) →
    (∀ k ∈ dictKeys c, pyInt? (pyStr k) = some k) →
    loadEntries acc (saveDoc c) = .ok (acc ++ c) := by
  induction c with
  | nil =>
    intro acc _ _ _
    simp [saveDoc, loadEntries]
  | cons hd tl ih =>
    obtain ⟨k, v⟩ := hd
    intro acc hnd hdis hparse
    have hk : pyInt? (pyStr k) = some k := hparse k (by simp [dictKeys])
    have hknotin : k ∉ dictKeys acc := hdis k (by simp [dictKeys])
    have hstep : loadEntries acc (saveDoc ((k, v) :: tl))
        = loadEntries (dictSet acc k v) (saveDoc tl) := by
      simp [saveDoc, loadEntries, hk]
    rw [hstep, dictSet_notMem acc k v hknotin]
    have hndtl : (dictKeys tl).Nodup := by
      have := hnd
      simp only [dictKeys, List.map_cons, List.nodup_cons] at this
      exact this.2
    have hkhd : k ∉ dictKeys tl := by
      have := hnd
      simp only [dictKeys, List.map_cons, List.nodup_cons] at this
      exact this.1
    have hdis' : ∀ k' ∈ dictKeys tl, k' ∉ dictKeys (acc ++ [(k, v)]) := by
      intro k' hk'
      have h1 : k' ∉ dictKeys acc := hdis k' (by simp [dictKeys] at hk' ⊢; exact Or.inr hk')
      have h2 : k' ≠ k := fun hkk => hkhd (hkk ▸ hk')
      simp [dictKeys, h2]
      simp [dictKeys] at h1
      exact h1
    have hparse' : ∀ k' ∈ dictKeys tl, pyInt? (pyStr k') = some k' := by
      intro k' hk'
      exact hparse k' (by simp [dictKeys] at hk' ⊢; exact Or.inr hk')
    rw [ih (acc ++ [(k, v)]) hndtl hdis' hparse']
    simp

/-! ### Claim theorems -/

/-- C4: for every task id in `1..19` and every finite sequence of appends to it
(starting from a catalog with no entries for that task), a subsequent get
returns exactly the appended references in call order — insertion order equals
display order and duplicates are retained. -/
theorem C4_get_returns_appends_in_order (c : Catalog) (t : Int) (refs : List Entry)
    (ht : 1 ≤ t ∧ t ≤ 19) (h0 : getMaterials c t = []) :
    getMaterials (appendAll c t refs) t = refs := by
  rw [getMaterials_appendAll t refs c, h0]
  simp

theorem C4_witness :
    getMaterials (appendAll [] 3 [("document", "a"), ("document", "a"), ("video", "b")]) 3
      = [("document", "a"), ("document", "a"), ("video", "b")] :=
  C4_get_returns_appends_in_order [] 3
    [("document", "a"), ("document", "a"), ("video", "b")] (by decide) (by decide)

/-- C5: an append (whose result `save_materials` serializes with decimal string
keys) followed by `load_materials` of that serialization — a process restart —
reproduces the identical catalog: every task maps to the identical ordered
sequence of `(kind, externalId)` pairs, the int-key to decimal-string-key
conversion included. -/
theorem C5_save_load_roundtrip (c : Catalog) (t : Int) (e : Entry)
    (hnd : (dictKeys c).Nodup)
    (hkeys : ∀ k ∈ dictKeys c, 1 ≤ k ∧ k ≤ 19)
    (ht : 1 ≤ t ∧ t ≤ 19) :
    loadMaterials (FileDoc.doc (saveDoc (appendMaterial c t e)))
      = Except.ok (appendMaterial c t e) := by
  have hkeys' : ∀ k ∈ dictKeys (appendMaterial c t e), 1 ≤ k ∧ k ≤ 19 := by
    rcases dictKeys_appendMaterial c t e with ⟨hmem, heq⟩ | ⟨hmem, heq⟩ <;> rw [heq]
    · exact hkeys
    · intro k hk
      rcases List.mem_append.mp hk with h | h
      · exact hkeys k h
      · simp at h
        subst h
        exact ht
  have hnd' : (dictKeys (appendMaterial c t e)).Nodup := by
    rcases dictKeys_appendMaterial c t e with ⟨hmem, heq⟩ | ⟨hmem, heq⟩ <;> rw [heq]
    · exact hnd
    · simp [List.nodup_append, hnd, hmem]
  have hload := loadEntries_saveDoc (appendMaterial c t e) [] hnd'
    (by simp [dictKeys])
    (fun k hk => pyInt_pyStr_taskId k (hkeys' k hk).1 (hkeys' k hk).2)
  simpa [loadMaterials] using hload

theorem C5_witness :
    loadMaterials (FileDoc.doc (saveDoc (appendMaterial [(1, [("document", "a")])] 2 ("video", "b"))))
      = Except.ok (appendMaterial [(1, [("document", "a")])] 2 ("video", "b")) :=
  C5_save_load_roundtrip [(1, [("document", "a")])] 2 ("video", "b")
    (by decide) (by decide) (by decide)

/-- C9: appending to task `t` leaves the stored sequence (indeed the stored
entry, present or absent) of every other task `t' ≠ t` unchanged — the frame
property of `append` over the catalog mapping. -/
theorem C9_append_frame (c : Catalog) (t t' : Int) (e : Entry) (h : t' ≠ t) :
    dictLookup (appendMaterial c t e) t' = dictLookup c t' :=
  dictLookup_appendMaterial_ne c t t' e h

theorem C9_witness :
    dictLookup (appendMaterial [(2, [("audio", "z")])] 1 ("document", "x")) 2
      = dictLookup [(2, [("audio", "z")])] 2 :=
  C9_append_frame [(2, [("audio", "z")])] 1 2 ("document", "x") (by decide)

/-- C3 counterexample: a populated task with three recognized references of
which the first two fail to send.  All three sends are attempted, but each
failure is answered by its own warning message, interleaved with the attempts —
two warnings in total, not one aggregated warning naming the failure count
after all attempts. -/
theorem C3_counterexample :
    processTaskSelection 4 [(4, [("document", "a"), ("video", "b"), ("audio", "c")])]
        [false, false, true]
      = [SendAction.sendMedia "document" "a" false, SendAction.reply (warnText 4),
         SendAction.sendMedia "video" "b" false, SendAction.reply (warnText 4),
         SendAction.sendMedia "audio" "c" true]
    ∧ countWarnings 4
        (processTaskSelection 4 [(4, [("document", "a"), ("video", "b"), ("audio", "c")])]
          [false, false, true]) = 2 :=
  ⟨rfl, rfl⟩

/-- C3 amended: for every populated task and every pattern of per-item
transport failures, the send loop attempts every recognized stored reference in
order even when earlier sends fail (the request never turns into a request-level
failure), but the failures are reported as one separate per-item warning
message each — the number of warning replies equals the number of failed
attempts — rather than as a single aggregated warning naming the failure
count. -/
theorem C3_attempts_all_and_warns_per_item (t : Int) (xs : List (Entry × Bool)) :
    sendAttempts (processEntries t xs)
      = (xs.filter (fun p => isRecognizedKind p.1.1)).map (fun p => (p.1.1, p.1.2, p.2))
    ∧ countWarnings t (processEntries t xs)
      = (xs.filter (fun p => isRecognizedKind p.1.1 && !p.2)).length := by
  induction xs with
  | nil => exact ⟨rfl, rfl⟩
  | cons hd tl ih =>
    obtain ⟨⟨k, fid⟩, b⟩ := hd
    by_cases hr : isRecognizedKind k
    · cases b
      · exact ⟨by simp [processEntries, hr, sendAttempts, ih.1],
               by simp [processEntries, hr, countWarnings, ih.2, Nat.add_comm]⟩
      · exact ⟨by simp [processEntries, hr, sendAttempts, ih.1],
               by simp [processEntries, hr, countWarnings, ih.2, Nat.add_comm]⟩
    · exact ⟨by simp [processEntries, hr, ih.1],
             by simp [processEntries, hr, countWarnings, ih.2]⟩

/-- C10: a stored entry whose kind tag is none of `document`, `video`, `audio`
(reachable via a durable file that was never validated) is silently skipped by
the send loop: it contributes no send attempt, no warning and no error, and the
surrounding recognized entries are processed exactly as if it were absent. -/
theorem C10_unrecognized_kind_skipped (t : Int) (xs ys : List (Entry × Bool))
    (k fid : String) (b : Bool) (h : isRecognizedKind k = false) :
    processEntries t (xs ++ ((k, fid), b) :: ys)
      = processEntries t xs ++ processEntries t ys := by
  induction xs with
  | nil => simp [processEntries, h]
  | cons hd tl ih =>
    obtain ⟨⟨k0, f0⟩, b0⟩ := hd
    simp [processEntries, ih, List.append_assoc]

theorem C10_witness :
    processEntries 1 [(("document", "a"), true), (("photo", "x"), true), (("audio", "c"), false)]
      = processEntries 1 [(("document", "a"), true)] ++ processEntries 1 [(("audio", "c"), false)] :=
  C10_unrecognized_kind_skipped 1 [(("document", "a"), true)] [(("audio", "c"), false)]
    "photo" "x" true (by decide)

/-- C6: a media file submitted while the sender's session is Idle (no prior
`/add`) is not accepted: the `waiting_for_file` filter fails, the message falls
through to `handle_unknown` (ordinary unrecognized-input handling), the catalog
and the durable file are unchanged, and the session remains Idle. -/
theorem C6_idle_media_is_unrecognized_input (admin : Bool) (mem : Catalog)
    (file : Option String) (kind : MediaKind) (fileId : String) (w : WriteOutcome) :
    dispatch admin ⟨none, mem, file⟩ (Event.mediaSubmitted kind fileId) w
      = (⟨none, mem, file⟩, [unknownText], false) := rfl

/-- C7 counterexample: `/done` from an Idle session (no active upload) does not
produce the ok acknowledgement — `cmd_done` is filtered on
`AddMaterial.waiting_for_file`, so the message is answered by the catch-all
`handle_unknown` instead. -/
theorem C7_counterexample :
    dispatch true ⟨none, [], none⟩ Event.cmdDone WriteOutcome.ok
      = (⟨none, [], none⟩, [unknownText], false)
    ∧ unknownText ≠ doneText :=
  ⟨rfl, by decide⟩

/-- C7 amended: `/done` always leaves the session Idle and never mutates the
catalog, but it succeeds with the ok acknowledgement only when a session was
active; from Idle it is handled as unrecognized input (the catch-all reply),
not acknowledged as a completed upload. -/
theorem C7_done_only_acks_active_session (admin : Bool) (st : BotState) (w : WriteOutcome) :
    dispatch admin st Event.cmdDone w
      = ({ st with session := none },
         [if st.session.isSome then doneText else unknownText], false) := by
  obtain ⟨s, mem, file⟩ := st
  cases s <;> rfl

/-- C8: for an administrator, `/add 5` then `/add 7` then submitting a document
appends the reference to task 7 and leaves task 5 untouched: the second `/add`
rebinds the single per-identity session to the new task (last-writer-wins),
whatever the session held before. -/
theorem C8_second_add_rebinds_session (sess : Option Int) (mem : Catalog)
    (file : Option String) :
    getMaterials (runEvents true ⟨sess, mem, file⟩
        [(Event.cmdAdd (some "5"), WriteOutcome.ok),
         (Event.cmdAdd (some "7"), WriteOutcome.ok),
         (Event.mediaSubmitted MediaKind.document "X", WriteOutcome.ok)]).mem 7
      = getMaterials mem 7 ++ [("document", "X")]
    ∧ dictLookup (runEvents true ⟨sess, mem, file⟩
        [(Event.cmdAdd (some "5"), WriteOutcome.ok),
         (Event.cmdAdd (some "7"), WriteOutcome.ok),
         (Event.mediaSubmitted MediaKind.document "X", WriteOutcome.ok)]).mem 5
      = dictLookup mem 5 := by
  have hrun : runEvents true ⟨sess, mem, file⟩
      [(Event.cmdAdd (some "5"), WriteOutcome.ok),
       (Event.cmdAdd (some "7"), WriteOutcome.ok),
       (Event.mediaSubmitted MediaKind.document "X", WriteOutcome.ok)]
      = ⟨some 7, appendMaterial mem 7 ("document", "X"),
         some (saveMaterials (appendMaterial mem 7 ("document", "X")) WriteOutcome.ok)⟩ := rfl
  rw [hrun]
  exact ⟨getMaterials_appendMaterial_self mem 7 ("document", "X"),
         dictLookup_appendMaterial_ne mem 7 5 ("document", "X") (by decide)⟩

/-- C1 counterexample: appending a document to a one-entry catalog while the
durable write fails at the very start (the `"w"` open has already truncated the
file) leaves the durable file holding neither the full updated serialization
nor the prior durable state — a partial (here: empty) write is observable — and
the in-memory catalog already holds the new entry, diverging from the last
confirmed durable state.  The handler does raise and issues no "file added"
reply. -/
theorem C1_counterexample :
    (let mem0 : Catalog := [(1, [("document", "A")])]
     let r := handleFileUpload 1 mem0 (some (dumpCatalog mem0)) MediaKind.document "B"
        (WriteOutcome.failAfter 0)
     (¬ (r.file = some (dumpCatalog r.mem) ∨ r.file = some (dumpCatalog mem0)))
       ∧ r.mem ≠ mem0 ∧ r.raised = true ∧ r.replies = []) := by
  decide

/-- C1 amended: `append` is write-through but not atomic.  On a durable-write
failure after `k` characters the handler does fail loudly — no "file added"
reply, the exception propagates — but the in-memory catalog retains the
appended entry (diverging from what was last confirmed durable) and the durable
file holds a bare length-`k` prefix of the new serialization, the prior durable
content having been truncated away. -/
theorem C1_failed_write_partial_and_memory_divergence (taskId : Int) (mem : Catalog)
    (file : Option String) (kind : MediaKind) (fileId : String) (k : Nat)
    (h : fileId ≠ "") :
    (handleFileUpload taskId mem file kind fileId (WriteOutcome.failAfter k)).replies = []
    ∧ (handleFileUpload taskId mem file kind fileId (WriteOutcome.failAfter k)).raised = true
    ∧ getMaterials (handleFileUpload taskId mem file kind fileId (WriteOutcome.failAfter k)).mem taskId
        = getMaterials mem taskId ++ [(kind.tag, fileId)]
    ∧ (handleFileUpload taskId mem file kind fileId (WriteOutcome.failAfter k)).file
        = some ((dumpCatalog (appendMaterial mem taskId (kind.tag, fileId))).take k) := by
  refine ⟨?_, ?_, ?_, ?_⟩ <;>
    simp [handleFileUpload, h, saveMaterials, WriteOutcome.isOk,
      getMaterials_appendMaterial_self]

theorem C1_witness :
    (handleFileUpload 1 [] none MediaKind.document "B" (WriteOutcome.failAfter 1)).replies = []
    ∧ (handleFileUpload 1 [] none MediaKind.document "B" (WriteOutcome.failAfter 1)).raised = true
    ∧ getMaterials (handleFileUpload 1 [] none MediaKind.document "B" (WriteOutcome.failAfter 1)).mem 1
        = getMaterials [] 1 ++ [(MediaKind.document.tag, "B")]
    ∧ (handleFileUpload 1 [] none MediaKind.document "B" (WriteOutcome.failAfter 1)).file
        = some ((dumpCatalog (appendMaterial [] 1 (MediaKind.document.tag, "B"))).take 1) :=
  C1_failed_write_partial_and_memory_divergence 1 [] none MediaKind.document "B" 1 (by decide)

/-- C2 counterexample: a corrupt durable file does not yield an empty catalog —
`json.load`'s error is uncaught and the load crashes; a syntactically valid
file with a key `int()` cannot parse crashes too; and an entry whose kind tag
is `photo` is neither skipped nor rejected with a reported error — it is loaded
verbatim. -/
theorem C2_counterexample :
    loadMaterials FileDoc.invalidJson = Except.error jsonDecodeError
    ∧ loadMaterials FileDoc.invalidJson ≠ Except.ok []
    ∧ loadMaterials (FileDoc.doc [("x", [("document", "a")])]) = Except.error valueErrorInt
    ∧ loadMaterials (FileDoc.doc [("1", [("photo", "X")])]) = Except.ok [(1, [("photo", "X")])] :=
  ⟨rfl, by simp [loadMaterials], rfl, rfl⟩

/-- C2 amended: a missing durable file yields an empty catalog, but a corrupt
one raises an uncaught `JSONDecodeError` (startup crash) rather than yielding
an empty catalog, and no per-entry kind validation happens on load: any entry
under a parseable key — its kind tag recognized or not — is loaded verbatim,
with no error reported (unrecognized kinds only surface later, silently skipped
at send time). -/
theorem C2_load_never_validates_entries (s : String) (i : Int) (v : List Entry)
    (hs : pyInt? s = some i) :
    loadMaterials FileDoc.absent = Except.ok ([] : Catalog)
    ∧ loadMaterials FileDoc.invalidJson = Except.error jsonDecodeError
    ∧ loadMaterials (FileDoc.doc [(s, v)]) = Except.ok [(i, v)] := by
  refine ⟨rfl, rfl, ?_⟩
  simp [loadMaterials, loadEntries, hs, dictSet]

theorem C2_witness :
    loadMaterials FileDoc.absent = Except.ok ([] : Catalog)
    ∧ loadMaterials FileDoc.invalidJson = Except.error jsonDecodeError
    ∧ loadMaterials (FileDoc.doc [("1", [("photo", "X")])]) = Except.ok [(1, [("photo", "X")])] :=
  C2_load_never_validates_entries "1" 1 [("photo", "X")] (by decide)

end Egebot
